import Mathlib

/-!
Shallow embedding of the 6502 processor core in `src/pones-6502/src/cpu.rs`
(crate `pones-6502` of the `pones` repository).

Machine integers are modelled as `Nat` with explicit `% 256` (bytes) and
`% 65536` (16-bit words) at every point where the Rust code wraps.  The `Bus`
trait object is modelled as a plain byte memory `Nat → Nat`, exactly the shape
of the repository's own `Memory` bus used by its integration tests
(`tests/test_binaries.rs`): `read` returns the byte stored at the address and
`write` stores a byte.  Reads mask the address to 16 bits and the value to
8 bits, so every value read is a byte no matter what function inhabits the
memory field.
-/

namespace Pones6502

/-- Wrapping 8-bit addition, `u8::wrapping_add`. -/
def wadd8 (x y : Nat) : Nat := (x + y) % 256

/-- Wrapping 8-bit subtraction, `u8::wrapping_sub` (for `y % 256 ≤ 256`). -/
def wsub8 (x y : Nat) : Nat := (x + 256 - y % 256) % 256

/-- Wrapping 16-bit addition, `u16::wrapping_add`. -/
def wadd16 (x y : Nat) : Nat := (x + y) % 65536

/-- Wrapping 16-bit subtraction, `u16::wrapping_sub`. -/
def wsub16 (x y : Nat) : Nat := (x + 65536 - y % 65536) % 65536

/-- The status-flag enumeration, `CpuFlag` in cpu.rs lines 11-21.  The Rust
code uses the enum discriminant (declaration order) as the bit index. -/
inductive CpuFlag where
  | carry
  | zero
  | interruptDisable
  | decimal
  | brk
  | reserved
  | overflow
  | negative
deriving DecidableEq, Repr

/-- Bit index of a flag: the Rust `flag as u8` discriminant. -/
def CpuFlag.bit : CpuFlag → Nat
  | .carry => 0
  | .zero => 1
  | .interruptDisable => 2
  | .decimal => 3
  | .brk => 4
  | .reserved => 5
  | .overflow => 6
  | .negative => 7

/-- Processor state, `Cpu6502<B>` in cpu.rs lines 23-31, with the bus `B`
instantiated at the byte-memory bus of the repository's tests. -/
structure Cpu where
  bus : Nat → Nat
  a : Nat
  x : Nat
  y : Nat
  status : Nat
  sp : Nat
  pc : Nat

/-- Fixed constant `STACK_START` (cpu.rs line 1). -/
def STACK_START : Nat := 0x0100

/-- Fixed constant `IRQ_BRK_VECTOR` (cpu.rs line 2). -/
def IRQ_BRK_VECTOR : Nat := 0xFFFE

/-- Fixed constant `RESET_VECTOR` (cpu.rs line 3). -/
def RESET_VECTOR : Nat := 0xFFFC

/-- Fixed constant `NMI_VECTOR` (cpu.rs line 4). -/
def NMI_VECTOR : Nat := 0xFFFA

/-- Constructor `Cpu6502::new` (cpu.rs lines 34-44):
`status = (1 << Reserved) | (1 << InterruptDisable)`, `sp = 255`, `pc = 0`. -/
def cpuNew (bus : Nat → Nat) : Cpu :=
  { bus := bus
    a := 0
    x := 0
    y := 0
    status := (1 <<< CpuFlag.reserved.bit) ||| (1 <<< CpuFlag.interruptDisable.bit)
    sp := 255
    pc := 0 }

/-- Flag read, `Cpu6502::get_flag` (cpu.rs lines 51-53). -/
def getFlag (flag : CpuFlag) (s : Cpu) : Bool :=
  s.status &&& (1 <<< flag.bit) != 0

/-- Flag write, `Cpu6502::set_flag` (cpu.rs lines 55-58):
`status &= !(1 << flag); status |= (value as u8) << flag`.  The 8-bit
complement `!(1 << flag)` is `255 ^^^ (1 <<< flag)`. -/
def setFlag (flag : CpuFlag) (value : Bool) (s : Cpu) : Cpu :=
  { s with status :=
      (s.status &&& (255 ^^^ (1 <<< flag.bit))) ||| ((if value then 1 else 0) <<< flag.bit) }

/-- Status restore, `Cpu6502::set_status` (cpu.rs lines 60-64):
clears the break bit (mask `!(1 << 4) = 0xEF`) and forces the reserved bit
(`| (1 << 5) = 0x20`). -/
def setStatus (value : Nat) (s : Cpu) : Cpu :=
  { s with status := (value &&& 0xEF) ||| 0x20 }

/-- Negative/zero update, `Cpu6502::update_nz_flags` (cpu.rs lines 66-69).
`(value as i8).is_negative()` for a byte is `128 ≤ value`. -/
def updateNzFlags (value : Nat) (s : Cpu) : Cpu :=
  setFlag .zero (value == 0) (setFlag .negative (decide (128 ≤ value)) s)

/-- Accumulator write with flag update, `Cpu6502::set_a` (cpu.rs lines 71-74). -/
def setA (value : Nat) (s : Cpu) : Cpu :=
  updateNzFlags value { s with a := value }

/-- X write with flag update, `Cpu6502::set_x` (cpu.rs lines 76-79). -/
def setX (value : Nat) (s : Cpu) : Cpu :=
  updateNzFlags value { s with x := value }

/-- Y write with flag update, `Cpu6502::set_y` (cpu.rs lines 81-84). -/
def setY (value : Nat) (s : Cpu) : Cpu :=
  updateNzFlags value { s with y := value }

/-- Bus read, `Cpu6502::read_byte` (cpu.rs lines 86-88) over the byte-memory
bus: the address is a `u16` and the result a `u8`. -/
def readByte (s : Cpu) (addr : Nat) : Nat :=
  s.bus (addr % 65536) % 256

/-- Little-endian 16-bit read, `Cpu6502::read_absolute` (cpu.rs lines 90-92):
`u16::from_le_bytes([read(addr), read(addr+1)])` with a wrapping increment. -/
def readAbsolute (s : Cpu) (addr : Nat) : Nat :=
  readByte s addr + 256 * readByte s (wadd16 addr 1)

/-- Bus write, `Cpu6502::write_byte` (cpu.rs lines 94-96). -/
def writeByte (addr value : Nat) (s : Cpu) : Cpu :=
  { s with bus := fun i => if i = addr % 65536 then value % 256 else s.bus i }

/-- Stack push, `Cpu6502::stack_push` (cpu.rs lines 98-101):
write at `STACK_START + sp`, then `sp = sp.wrapping_sub(1)`. -/
def stackPush (value : Nat) (s : Cpu) : Cpu :=
  let s1 := writeByte (STACK_START + s.sp) value s
  { s1 with sp := wsub8 s1.sp 1 }

/-- Stack pop, `Cpu6502::stack_pop` (cpu.rs lines 103-106):
`sp = sp.wrapping_add(1)`, then read at `STACK_START + sp`. -/
def stackPop (s : Cpu) : Nat × Cpu :=
  let s1 := { s with sp := wadd8 s.sp 1 }
  (readByte s1 (STACK_START + s1.sp), s1)

/-- Instruction-stream fetch, `Cpu6502::take_byte_at_pc` (cpu.rs lines 108-112). -/
def takeByteAtPc (s : Cpu) : Nat × Cpu :=
  (readByte s s.pc, { s with pc := wadd16 s.pc 1 })

/-- Immediate mode `#i`, `Cpu6502::take_immediate` (cpu.rs lines 114-119):
returns the address of the operand byte itself. -/
def takeImmediate (s : Cpu) : Nat × Cpu :=
  let addr := s.pc
  (addr, (takeByteAtPc s).2)

/-- Relative mode `*+d`, `Cpu6502::take_relative` (cpu.rs lines 121-125):
the operand byte sign-extended (`as i8 as u16`) added to the post-fetch pc. -/
def takeRelative (s : Cpu) : Nat × Cpu :=
  let (b, s1) := takeByteAtPc s
  let offset := if b < 128 then b else b + 0xFF00
  (wadd16 s1.pc offset, s1)

/-- Zero-page mode `d`, `Cpu6502::take_zero_page` (cpu.rs lines 127-130). -/
def takeZeroPage (s : Cpu) : Nat × Cpu :=
  takeByteAtPc s

/-- Absolute mode `a`, `Cpu6502::take_absolute` (cpu.rs lines 138-141):
little-endian 16-bit operand. -/
def takeAbsolute (s : Cpu) : Nat × Cpu :=
  let (lo, s1) := takeByteAtPc s
  let (hi, s2) := takeByteAtPc s1
  (lo + 256 * hi, s2)

/-- Indirect mode `(a)`, `Cpu6502::take_indirect` (cpu.rs lines 132-136). -/
def takeIndirect (s : Cpu) : Nat × Cpu :=
  let (addr, s1) := takeAbsolute s
  (readAbsolute s1 addr, s1)

/-- Mode `a,x`, `Cpu6502::take_absolute_indexed_x` (cpu.rs lines 143-146). -/
def takeAbsoluteIndexedX (s : Cpu) : Nat × Cpu :=
  let (addr, s1) := takeAbsolute s
  (wadd16 addr s1.x, s1)

/-- Mode `a,y`, `Cpu6502::take_absolute_indexed_y` (cpu.rs lines 148-151). -/
def takeAbsoluteIndexedY (s : Cpu) : Nat × Cpu :=
  let (addr, s1) := takeAbsolute s
  (wadd16 addr s1.y, s1)

/-- Mode `d,x`, `Cpu6502::take_zero_page_indexed_x` (cpu.rs lines 153-156):
zero-page byte plus X, wrapping within 0-255. -/
def takeZeroPageIndexedX (s : Cpu) : Nat × Cpu :=
  let (d, s1) := takeZeroPage s
  (wadd8 d s1.x, s1)

/-- Mode `d,y`, `Cpu6502::take_zero_page_indexed_y` (cpu.rs lines 158-161). -/
def takeZeroPageIndexedY (s : Cpu) : Nat × Cpu :=
  let (d, s1) := takeZeroPage s
  (wadd8 d s1.y, s1)

/-- Mode `(d,x)`, `Cpu6502::take_indexed_indirect` (cpu.rs lines 163-167). -/
def takeIndexedIndirect (s : Cpu) : Nat × Cpu :=
  let (addr, s1) := takeZeroPageIndexedX s
  (readAbsolute s1 addr, s1)

/-- Mode `(d),y`, `Cpu6502::take_indirect_indexed` (cpu.rs lines 169-173). -/
def takeIndirectIndexed (s : Cpu) : Nat × Cpu :=
  let (d, s1) := takeZeroPage s
  (wadd16 (readAbsolute s1 d) s1.y, s1)

/-! ## Instruction bodies

One definition per handler arm of the 256-way `match` in `Cpu6502::step`
(cpu.rs lines 175-749).  Arms written `{}` in the source (the "illegal"
opcodes reduced to no-ops) appear below directly as `some s` in the
dispatcher. -/

/-- Branch family, cpu.rs lines 200-216: resolve the relative target first,
then test the flag selected by the `aaa` bits; `8.. => unreachable!()` is
`none`. -/
def branchBody (op : Nat) (s : Cpu) : Option Cpu :=
  let (addr, s1) := takeRelative s
  let branch : Option Bool :=
    match op with
    | 0 => some (!(getFlag .negative s1))
    | 1 => some (getFlag .negative s1)
    | 2 => some (!(getFlag .overflow s1))
    | 3 => some (getFlag .overflow s1)
    | 4 => some (!(getFlag .carry s1))
    | 5 => some (getFlag .carry s1)
    | 6 => some (!(getFlag .zero s1))
    | 7 => some (getFlag .zero s1)
    | _ + 8 => none
  match branch with
  | none => none
  | some b => some (if b then { s1 with pc := addr } else s1)

/-- JSR (cpu.rs lines 230-237): push `pc - 1` (the address of the last byte
of the instruction) high byte first, then jump. -/
def jsrBody (s : Cpu) : Cpu :=
  let (subroutine, s1) := takeAbsolute s
  let returnAddr := wsub16 s1.pc 1
  let s2 := stackPush (returnAddr / 256) s1
  let s3 := stackPush (returnAddr % 256) s2
  { s3 with pc := subroutine }

/-- RTS (cpu.rs lines 238-243): pop low then high, add 1. -/
def rtsBody (s : Cpu) : Cpu :=
  let (retLow, s1) := stackPop s
  let (retHigh, s2) := stackPop s1
  { s2 with pc := wadd16 (retLow + 256 * retHigh) 1 }

/-- BRK (cpu.rs lines 246-254): skip the operand byte, push pc high, pc low,
status with the break bit forced, set interrupt-disable, load the vector. -/
def brkBody (s : Cpu) : Cpu :=
  let s1 := { s with pc := wadd16 s.pc 1 }
  let s2 := stackPush (s1.pc / 256) s1
  let s3 := stackPush (s1.pc % 256) s2
  let s4 := stackPush (s3.status ||| (1 <<< CpuFlag.brk.bit)) s3
  let s5 := setFlag .interruptDisable true s4
  { s5 with pc := readAbsolute s5 IRQ_BRK_VECTOR }

/-- RTI (cpu.rs lines 255-261): pop status (through `set_status`), then pop
pc low then high. -/
def rtiBody (s : Cpu) : Cpu :=
  let (st, s1) := stackPop s
  let s2 := setStatus st s1
  let (retLow, s3) := stackPop s2
  let (retHigh, s4) := stackPop s3
  { s4 with pc := retLow + 256 * retHigh }

/-- BIT (cpu.rs lines 264-277), shared by the zero-page and absolute arms
once the address is resolved. -/
def bitVia (resolve : Cpu → Nat × Cpu) (s : Cpu) : Cpu :=
  let (addr, s1) := resolve s
  let n := readByte s1 addr
  let s2 := setFlag .zero (s1.a &&& n == 0) s1
  let s3 := setFlag .negative (n &&& 128 != 0) s2
  setFlag .overflow (n &&& 64 != 0) s3

/-- PHP (cpu.rs line 280): push status with the break bit forced. -/
def phpBody (s : Cpu) : Cpu :=
  stackPush (s.status ||| (1 <<< CpuFlag.brk.bit)) s

/-- PLP (cpu.rs lines 281-284). -/
def plpBody (s : Cpu) : Cpu :=
  let (st, s1) := stackPop s
  setStatus st s1

/-- PHA (cpu.rs line 285). -/
def phaBody (s : Cpu) : Cpu :=
  stackPush s.a s

/-- PLA (cpu.rs lines 286-289). -/
def plaBody (s : Cpu) : Cpu :=
  let (n, s1) := stackPop s
  setA n s1

/-- STY (cpu.rs lines 311-322), shared by its three addressing arms. -/
def styVia (resolve : Cpu → Nat × Cpu) (s : Cpu) : Cpu :=
  let (addr, s1) := resolve s
  writeByte addr s1.y s1

/-- STX (cpu.rs lines 568-581), shared by its three addressing arms. -/
def stxVia (resolve : Cpu → Nat × Cpu) (s : Cpu) : Cpu :=
  let (addr, s1) := resolve s
  writeByte addr s1.x s1

/-- LDY (cpu.rs lines 325-349), shared by its five addressing arms. -/
def ldyVia (resolve : Cpu → Nat × Cpu) (s : Cpu) : Cpu :=
  let (addr, s1) := resolve s
  setY (readByte s1 addr) s1

/-- LDX (cpu.rs lines 586-613), shared by its five addressing arms. -/
def ldxVia (resolve : Cpu → Nat × Cpu) (s : Cpu) : Cpu :=
  let (addr, s1) := resolve s
  setX (readByte s1 addr) s1

/-- CPY (cpu.rs lines 351-368): `update_nz(y - n)` then `carry = (y >= n)`. -/
def cpyVia (resolve : Cpu → Nat × Cpu) (s : Cpu) : Cpu :=
  let (addr, s1) := resolve s
  let n := readByte s1 addr
  let s2 := updateNzFlags (wsub8 s1.y n) s1
  setFlag .carry (decide (n ≤ s2.y)) s2

/-- CPX (cpu.rs lines 372-389). -/
def cpxVia (resolve : Cpu → Nat × Cpu) (s : Cpu) : Cpu :=
  let (addr, s1) := resolve s
  let n := readByte s1 addr
  let s2 := updateNzFlags (wsub8 s1.x n) s1
  setFlag .carry (decide (n ≤ s2.x)) s2

/-- DEC (cpu.rs lines 617-647), shared by its four addressing arms:
read, wrapping decrement, write back, update NZ. -/
def decVia (resolve : Cpu → Nat × Cpu) (s : Cpu) : Cpu :=
  let (addr, s1) := resolve s
  let n := readByte s1 addr
  let result := wsub8 n 1
  updateNzFlags result (writeByte addr result s1)

/-- INC (cpu.rs lines 651-681), shared by its four addressing arms. -/
def incVia (resolve : Cpu → Nat × Cpu) (s : Cpu) : Cpu :=
  let (addr, s1) := resolve s
  let n := readByte s1 addr
  let result := wadd8 n 1
  updateNzFlags result (writeByte addr result s1)

/-- ADC handler body (cpu.rs lines 421-448) applied to the operand byte
already read from the resolved address.  The 9-bit binary sum drives carry,
overflow and NZ; when the decimal flag is set, the accumulator and the carry
flag are recomputed by BCD nibble correction.  The two Rust
`if lower >= 10 { .. }` / `if upper >= 10 { .. }` mutations are written as
conditional rebindings. -/
def adcWith (operand : Nat) (s : Cpu) : Cpu :=
  let carry := if getFlag .carry s then 1 else 0
  let result := s.a + operand + carry
  let sevenbitResult := (s.a &&& 0x7F) + (operand &&& 0x7F) + carry
  let carryout := decide (result > 0xFF)
  let s1 := setFlag .carry carryout s
  let s2 := setFlag .overflow (carryout != decide (sevenbitResult > 0x7F)) s1
  let s3 := updateNzFlags (result % 256) s2
  if getFlag .decimal s3 then
    let s4 := setFlag .carry false s3
    let lower := (s3.a &&& 0xF) + (operand &&& 0xF) + carry
    let upper := (s3.a >>> 4) + (operand >>> 4)
    let lower1 := if 10 ≤ lower then (lower - 10) &&& 0xF else lower
    let upper1 := if 10 ≤ lower then upper + 1 else upper
    let upper2 := if 10 ≤ upper1 then (upper1 - 10) &&& 0xF else upper1
    let s5 := if 10 ≤ upper1 then setFlag .carry true s4 else s4
    { s5 with a := ((upper2 <<< 4) ||| lower1) % 256 }
  else
    { s3 with a := result % 256 }

/-- SBC handler body (cpu.rs lines 467-497) applied to the raw operand byte
read from the resolved address; the body first complements it
(`!m` on `u8` is `255 - m`).  In the decimal branch the operand is
complemented back and a ten's-complement nibble subtraction (with `u16`
wrapping) recomputes the accumulator and the carry flag. -/
def sbcWith (m : Nat) (s : Cpu) : Cpu :=
  let operand := 255 - m % 256
  let carry := if getFlag .carry s then 1 else 0
  let result := s.a + operand + carry
  let sevenbitResult := (s.a &&& 0x7F) + (operand &&& 0x7F) + carry
  let carryout := decide (result > 0xFF)
  let s1 := setFlag .carry carryout s
  let s2 := setFlag .overflow (carryout != decide (sevenbitResult > 0x7F)) s1
  let s3 := updateNzFlags (result % 256) s2
  if getFlag .decimal s3 then
    let operand2 := 255 - operand % 256
    let s4 := setFlag .carry true s3
    let lower := wsub16 (wsub16 (s3.a &&& 0xF) (operand2 &&& 0xF)) (1 - carry)
    let upper := wsub16 (s3.a >>> 4) (operand2 >>> 4)
    let lower1 := if 10 ≤ lower then (wadd16 lower 10) &&& 0xF else lower
    let upper1 := if 10 ≤ lower then wsub16 upper 1 else upper
    let upper2 := if 10 ≤ upper1 then (wadd16 upper1 10) &&& 0xF else upper1
    let s5 := if 10 ≤ upper1 then setFlag .carry false s4 else s4
    { s5 with a := ((upper2 <<< 4) ||| lower1) % 256 }
  else
    { s3 with a := result % 256 }

/-- CMP (cpu.rs lines 459-466). -/
def cmpWith (n : Nat) (s : Cpu) : Cpu :=
  let s1 := updateNzFlags (wsub8 s.a n) s
  setFlag .carry (decide (n ≤ s1.a)) s1

/-- Group 1 address resolution (cpu.rs lines 395-406): addressing mode from
the `bbb` bits; mode 2 (immediate) is the non-writable slot;
`8.. => unreachable!()` is `none`. -/
def resolveAlu (mode : Nat) (s : Cpu) : Option (Nat × Cpu) :=
  match mode with
  | 0 => some (takeIndexedIndirect s)
  | 1 => some (takeZeroPage s)
  | 2 => some (takeImmediate s)
  | 3 => some (takeAbsolute s)
  | 4 => some (takeIndirectIndexed s)
  | 5 => some (takeZeroPageIndexedX s)
  | 6 => some (takeAbsoluteIndexedY s)
  | 7 => some (takeAbsoluteIndexedX s)
  | _ + 8 => none

/-- Group 1, the ALU block (cpu.rs lines 393-500).  `op` is `aaa`,
`mode` is `bbb`; opcode 4 (STA) writes only when the mode is writable and is
otherwise the illegal `NOP #i` (opcode 0x89). -/
def group1 (op mode : Nat) (s : Cpu) : Option Cpu :=
  let addrWritable := mode != 2
  match resolveAlu mode s with
  | none => none
  | some (addr, s1) =>
    match op with
    | 0 => some (setA (s1.a ||| readByte s1 addr) s1)
    | 1 => some (setA (s1.a &&& readByte s1 addr) s1)
    | 2 => some (setA (s1.a ^^^ readByte s1 addr) s1)
    | 3 => some (adcWith (readByte s1 addr) s1)
    | 4 => some (if addrWritable then writeByte addr s1.a s1 else s1)
    | 5 => some (setA (readByte s1 addr) s1)
    | 6 => some (cmpWith (readByte s1 addr) s1)
    | 7 => some (sbcWith (readByte s1 addr) s1)
    | _ + 8 => none

/-- Shift/rotate kernel shared by the accumulator and memory arms
(cpu.rs lines 509-529 and 541-561): returns the shifted byte and the state
with the carry flag updated; `4.. => unreachable!()` is `none`. -/
def shiftExec (op n : Nat) (s : Cpu) : Option (Nat × Cpu) :=
  match op with
  | 0 => some ((n <<< 1) % 256, setFlag .carry (n &&& 128 != 0) s)
  | 1 =>
    let carry := getFlag .carry s
    some ((((n <<< 1) % 256) ||| (if carry then 1 else 0)) % 256,
      setFlag .carry (n &&& 128 != 0) s)
  | 2 => some (n >>> 1, setFlag .carry (n &&& 1 != 0) s)
  | 3 =>
    let carry := getFlag .carry s
    some (((n >>> 1) ||| ((if carry then 1 else 0) <<< 7)),
      setFlag .carry (n &&& 1 != 0) s)
  | _ + 4 => none

/-- Accumulator shift arm (cpu.rs lines 507-531). -/
def shiftAcc (op : Nat) (s : Cpu) : Option Cpu :=
  match shiftExec op s.a s with
  | none => none
  | some (result, s1) => some (setA result s1)

/-- Memory shift arm (cpu.rs lines 532-564): resolve, read, shift, write
back, update NZ. -/
def shiftMem (op mode : Nat) (s : Cpu) : Option Cpu :=
  let resolved : Option (Nat × Cpu) :=
    match mode with
    | 1 => some (takeZeroPage s)
    | 3 => some (takeAbsolute s)
    | 5 => some (takeZeroPageIndexedX s)
    | 7 => some (takeAbsoluteIndexedX s)
    | _ => none
  match resolved with
  | none => none
  | some (addr, s1) =>
    let n := readByte s1 addr
    match shiftExec op n s1 with
    | none => none
    | some (result, s2) => some (updateNzFlags result (writeByte addr result s2))

/-- Group 0, the control-flow block of `Cpu6502::step` (cpu.rs lines
198-391), dispatched on `(aaa, bbb)`; `cc = 0` is already selected.
Arms that are `{}` in the source (illegal no-op opcodes) are `some s`. -/
def group0 (a b : Nat) (s : Cpu) : Option Cpu :=
  match a, b with
  | op, 4 => branchBody op s
  | 0, 6 => some (setFlag .carry false s)
  | 1, 6 => some (setFlag .carry true s)
  | 2, 6 => some (setFlag .interruptDisable false s)
  | 3, 6 => some (setFlag .interruptDisable true s)
  | 5, 6 => some (setFlag .overflow false s)
  | 6, 6 => some (setFlag .decimal false s)
  | 7, 6 => some (setFlag .decimal true s)
  | 2, 3 => some (let (addr, s1) := takeAbsolute s; { s1 with pc := addr })
  | 3, 3 => some (let (addr, s1) := takeIndirect s; { s1 with pc := addr })
  | 1, 0 => some (jsrBody s)
  | 3, 0 => some (rtsBody s)
  | 0, 0 => some (brkBody s)
  | 2, 0 => some (rtiBody s)
  | 1, 1 => some (bitVia takeZeroPage s)
  | 1, 3 => some (bitVia takeAbsolute s)
  | 0, 2 => some (phpBody s)
  | 1, 2 => some (plpBody s)
  | 2, 2 => some (phaBody s)
  | 3, 2 => some (plaBody s)
  | 0, 1 | 0, 3 | 0, 5 | 0, 7 => some s
  | 1, 5 | 1, 7 | 2, 1 | 2, 5 | 2, 7 | 3, 1 | 3, 5 | 3, 7 => some s
  | 4, 6 => some (setA s.y s)
  | 5, 2 => some (setY s.a s)
  | 6, 2 => some (setY (wadd8 s.y 1) s)
  | 7, 2 => some (setX (wadd8 s.x 1) s)
  | 4, 2 => some (setY (wsub8 s.y 1) s)
  | 4, 0 => some s
  | 4, 1 => some (styVia takeZeroPage s)
  | 4, 3 => some (styVia takeAbsolute s)
  | 4, 5 => some (styVia takeZeroPageIndexedX s)
  | 4, 7 => some s
  | 5, 0 => some (ldyVia takeImmediate s)
  | 5, 1 => some (ldyVia takeZeroPage s)
  | 5, 3 => some (ldyVia takeAbsolute s)
  | 5, 5 => some (ldyVia takeZeroPageIndexedX s)
  | 5, 7 => some (ldyVia takeAbsoluteIndexedX s)
  | 6, 0 => some (cpyVia takeImmediate s)
  | 6, 1 => some (cpyVia takeZeroPage s)
  | 6, 3 => some (cpyVia takeAbsolute s)
  | 6, 5 | 6, 7 => some s
  | 7, 0 => some (cpxVia takeImmediate s)
  | 7, 1 => some (cpxVia takeZeroPage s)
  | 7, 3 => some (cpxVia takeAbsolute s)
  | 7, 5 | 7, 7 => some s
  | _, _ => none

/-- Group 2, the read-modify-write/store/load block (cpu.rs lines 502-681).
Arms that are `{}` in the source (STP and illegal/official NOPs) are
`some s`. -/
def group2 (a b : Nat) (s : Cpu) : Option Cpu :=
  match a, b with
  | 0, 0 | 1, 0 | 2, 0 | 3, 0 => some s
  | 0, 4 | 1, 4 | 2, 4 | 3, 4 => some s
  | 0, 6 | 1, 6 | 2, 6 | 3, 6 => some s
  | 0, 2 => shiftAcc 0 s
  | 1, 2 => shiftAcc 1 s
  | 2, 2 => shiftAcc 2 s
  | 3, 2 => shiftAcc 3 s
  | 0, 1 => shiftMem 0 1 s
  | 0, 3 => shiftMem 0 3 s
  | 0, 5 => shiftMem 0 5 s
  | 0, 7 => shiftMem 0 7 s
  | 1, 1 => shiftMem 1 1 s
  | 1, 3 => shiftMem 1 3 s
  | 1, 5 => shiftMem 1 5 s
  | 1, 7 => shiftMem 1 7 s
  | 2, 1 => shiftMem 2 1 s
  | 2, 3 => shiftMem 2 3 s
  | 2, 5 => shiftMem 2 5 s
  | 2, 7 => shiftMem 2 7 s
  | 3, 1 => shiftMem 3 1 s
  | 3, 3 => shiftMem 3 3 s
  | 3, 5 => shiftMem 3 5 s
  | 3, 7 => shiftMem 3 7 s
  | 4, 0 => some s
  | 4, 1 => some (stxVia takeZeroPage s)
  | 4, 2 => some (setA s.x s)
  | 4, 3 => some (stxVia takeAbsolute s)
  | 4, 4 => some s
  | 4, 5 => some (stxVia takeZeroPageIndexedY s)
  | 4, 6 => some { s with sp := s.x }
  | 4, 7 => some s
  | 5, 0 => some (ldxVia takeImmediate s)
  | 5, 1 => some (ldxVia takeZeroPage s)
  | 5, 2 => some (setX s.a s)
  | 5, 3 => some (ldxVia takeAbsolute s)
  | 5, 4 => some s
  | 5, 5 => some (ldxVia takeZeroPageIndexedY s)
  | 5, 6 => some (setX s.sp s)
  | 5, 7 => some (ldxVia takeAbsoluteIndexedY s)
  | 6, 0 => some s
  | 6, 1 => some (decVia takeZeroPage s)
  | 6, 2 => some (setX (wsub8 s.x 1) s)
  | 6, 3 => some (decVia takeAbsolute s)
  | 6, 4 => some s
  | 6, 5 => some (decVia takeZeroPageIndexedX s)
  | 6, 6 => some s
  | 6, 7 => some (decVia takeAbsoluteIndexedX s)
  | 7, 0 => some s
  | 7, 1 => some (incVia takeZeroPage s)
  | 7, 2 => some s
  | 7, 3 => some (incVia takeAbsolute s)
  | 7, 4 => some s
  | 7, 5 => some (incVia takeZeroPageIndexedX s)
  | 7, 6 => some s
  | 7, 7 => some (incVia takeAbsoluteIndexedX s)
  | _, _ => none

/-- Group 3, the unofficial-opcode block (cpu.rs lines 683-747): every arm
with `aaa < 8` and `bbb < 8` is `{}` in the source, a pure no-op. -/
def group3 (a b : Nat) (s : Cpu) : Option Cpu :=
  match a, b with
  | _ + 8, _ => none
  | _, _ + 8 => none
  | _, _ => some s

/-- Decode and execute after the opcode fetch: the 256-way `match` of
`Cpu6502::step` (cpu.rs lines 192-748), split by the `cc` group bits.
`unreachable!()` arms are `none`. -/
def stepAfterFetch (opcode : Nat) (s : Cpu) : Option Cpu :=
  let aaa := (opcode >>> 5) &&& 7
  let bbb := (opcode >>> 2) &&& 7
  let cc := opcode &&& 3
  match cc with
  | 0 => group0 aaa bbb s
  | 1 => group1 aaa bbb s
  | 2 => group2 aaa bbb s
  | 3 => group3 aaa bbb s
  | _ + 4 => none

/-- One instruction, `Cpu6502::step` (cpu.rs lines 175-749): fetch the
opcode byte at pc, then decode and execute.  `none` would mean a
`unreachable!()` panic. -/
def stepP (s : Cpu) : Option Cpu :=
  let (opcode, s1) := takeByteAtPc s
  stepAfterFetch opcode s1

/-- Total wrapper for `Cpu6502::step`; the decode-totality theorem shows the
default branch never fires. -/
def step (s : Cpu) : Cpu :=
  (stepP s).getD s

/-- Device reset, `Cpu6502::reset` (cpu.rs lines 46-49): set
interrupt-disable and load pc from the reset vector. -/
def reset (s : Cpu) : Cpu :=
  let s1 := setFlag .interruptDisable true s
  { s1 with pc := readAbsolute s1 RESET_VECTOR }

/-- The stored-status invariant: bit 4 (break) clear and bit 5 (reserved)
set, phrased through `get_flag`. -/
def statusOK (s : Cpu) : Prop :=
  getFlag .brk s = false ∧ getFlag .reserved s = true

/-- The states of the machine obtainable from `Cpu6502::new` by any
sequence of `reset` and `step` calls over any bus. -/
inductive Reachable : Cpu → Prop where
  | new (bus : Nat → Nat) : Reachable (cpuNew bus)
  | reset {s : Cpu} : Reachable s → Reachable (reset s)
  | step {s : Cpu} : Reachable s → Reachable (step s)

/-! ## Basic lemmas about the flag register -/

theorem flagBit_lt (f : CpuFlag) : f.bit < 8 := by cases f <;> decide

theorem flagBit_inj {f g : CpuFlag} : f.bit = g.bit ↔ f = g := by
  cases f <;> cases g <;> decide

theorem getFlag_eq_testBit (f : CpuFlag) (s : Cpu) :
    getFlag f s = s.status.testBit f.bit := by
  unfold getFlag
  rw [Nat.one_shiftLeft, Nat.and_two_pow]
  cases h : s.status.testBit f.bit <;>
    simp [h, Nat.pow_eq_zero]

theorem testBit_setFlag (f : CpuFlag) (v : Bool) (s : Cpu) (i : Nat) (hi : i < 8) :
    (setFlag f v s).status.testBit i = if i = f.bit then v else s.status.testBit i := by
  unfold setFlag
  simp only [Nat.testBit_lor, Nat.testBit_land, Nat.testBit_xor]
  have h255 : Nat.testBit 255 i = true := by
    have h8 : (255 : Nat) = 2 ^ 8 - 1 := by norm_num
    rw [h8, Nat.testBit_two_pow_sub_one]
    simpa using hi
  rcases eq_or_ne i f.bit with h | h
  · subst h
    cases v <;>
      simp [h255, Nat.one_shiftLeft, Nat.testBit_two_pow_self]
  · cases v <;>
      simp [h255, Nat.one_shiftLeft, h, Nat.testBit_two_pow_of_ne (Ne.symm h)]

@[simp] theorem getFlag_setFlag (g f : CpuFlag) (v : Bool) (s : Cpu) :
    getFlag g (setFlag f v s) = if g = f then v else getFlag g s := by
  rw [getFlag_eq_testBit, getFlag_eq_testBit,
    testBit_setFlag f v s g.bit (flagBit_lt g)]
  by_cases h : g = f
  · simp [h]
  · rw [if_neg (fun hb => h (flagBit_inj.mp hb)), if_neg h]

/-! ## Projection lemmas: which fields each primitive leaves alone -/

@[simp] theorem setFlag_a (f v s) : (setFlag f v s).a = s.a := rfl
@[simp] theorem setFlag_x (f v s) : (setFlag f v s).x = s.x := rfl
@[simp] theorem setFlag_y (f v s) : (setFlag f v s).y = s.y := rfl
@[simp] theorem setFlag_sp (f v s) : (setFlag f v s).sp = s.sp := rfl
@[simp] theorem setFlag_pc (f v s) : (setFlag f v s).pc = s.pc := rfl
@[simp] theorem setFlag_bus (f v s) : (setFlag f v s).bus = s.bus := rfl

@[simp] theorem setStatus_a (v s) : (setStatus v s).a = s.a := rfl
@[simp] theorem setStatus_x (v s) : (setStatus v s).x = s.x := rfl
@[simp] theorem setStatus_y (v s) : (setStatus v s).y = s.y := rfl
@[simp] theorem setStatus_sp (v s) : (setStatus v s).sp = s.sp := rfl
@[simp] theorem setStatus_pc (v s) : (setStatus v s).pc = s.pc := rfl
@[simp] theorem setStatus_bus (v s) : (setStatus v s).bus = s.bus := rfl

@[simp] theorem updateNzFlags_a (v s) : (updateNzFlags v s).a = s.a := rfl
@[simp] theorem updateNzFlags_x (v s) : (updateNzFlags v s).x = s.x := rfl
@[simp] theorem updateNzFlags_y (v s) : (updateNzFlags v s).y = s.y := rfl
@[simp] theorem updateNzFlags_sp (v s) : (updateNzFlags v s).sp = s.sp := rfl
@[simp] theorem updateNzFlags_pc (v s) : (updateNzFlags v s).pc = s.pc := rfl
@[simp] theorem updateNzFlags_bus (v s) : (updateNzFlags v s).bus = s.bus := rfl

@[simp] theorem writeByte_a (addr v s) : (writeByte addr v s).a = s.a := rfl
@[simp] theorem writeByte_x (addr v s) : (writeByte addr v s).x = s.x := rfl
@[simp] theorem writeByte_y (addr v s) : (writeByte addr v s).y = s.y := rfl
@[simp] theorem writeByte_sp (addr v s) : (writeByte addr v s).sp = s.sp := rfl
@[simp] theorem writeByte_pc (addr v s) : (writeByte addr v s).pc = s.pc := rfl
@[simp] theorem writeByte_status (addr v s) : (writeByte addr v s).status = s.status := rfl

@[simp] theorem stackPush_a (v s) : (stackPush v s).a = s.a := rfl
@[simp] theorem stackPush_x (v s) : (stackPush v s).x = s.x := rfl
@[simp] theorem stackPush_y (v s) : (stackPush v s).y = s.y := rfl
@[simp] theorem stackPush_pc (v s) : (stackPush v s).pc = s.pc := rfl
@[simp] theorem stackPush_status (v s) : (stackPush v s).status = s.status := rfl
@[simp] theorem stackPush_sp (v s) : (stackPush v s).sp = wsub8 s.sp 1 := rfl

@[simp] theorem getFlag_updateNzFlags (g : CpuFlag) (v : Nat) (s : Cpu) :
    getFlag g (updateNzFlags v s) =
      if g = .zero then (v == 0)
      else if g = .negative then decide (128 ≤ v)
      else getFlag g s := by
  unfold updateNzFlags
  rcases g <;> simp

theorem testBit_239 (i : Nat) (hi : i < 8) : Nat.testBit 239 i = decide (i ≠ 4) := by
  interval_cases i <;> decide

theorem testBit_32 (i : Nat) : Nat.testBit 32 i = decide (i = 5) := by
  have h32 : (32 : Nat) = 2 ^ 5 := by norm_num
  rcases eq_or_ne i 5 with h | h
  · subst h; decide
  · simp [h, h32, Nat.testBit_two_pow_of_ne (Ne.symm h)]

theorem testBit_setStatus (v : Nat) (s : Cpu) (i : Nat) (hi : i < 8) :
    (setStatus v s).status.testBit i =
      if i = 4 then false else if i = 5 then true else v.testBit i := by
  unfold setStatus
  simp only [Nat.testBit_lor, Nat.testBit_land]
  rw [testBit_239 i hi, testBit_32 i]
  rcases eq_or_ne i 4 with h4 | h4
  · simp [h4]
  · rcases eq_or_ne i 5 with h5 | h5 <;> simp [h4, h5]

@[simp] theorem getFlag_setStatus (g : CpuFlag) (v : Nat) (s : Cpu) :
    getFlag g (setStatus v s) =
      if g = .brk then false
      else if g = .reserved then true
      else v.testBit g.bit := by
  rw [getFlag_eq_testBit, testBit_setStatus v s g.bit (flagBit_lt g)]
  cases g <;> simp [CpuFlag.bit]

/-! ## Memory read-over-write lemmas -/

theorem readByte_writeByte (a v b : Nat) (s : Cpu) :
    readByte (writeByte a v s) b =
      if b % 65536 = a % 65536 then v % 256 else readByte s b := by
  unfold readByte writeByte
  by_cases h : b % 65536 = a % 65536 <;> simp [h, Nat.mod_mod_of_dvd]

@[simp] theorem readByte_setFlag (f v s addr) :
    readByte (setFlag f v s) addr = readByte s addr := rfl
@[simp] theorem readByte_setStatus (v s addr) :
    readByte (setStatus v s) addr = readByte s addr := rfl
@[simp] theorem readByte_updateNzFlags (v s addr) :
    readByte (updateNzFlags v s) addr = readByte s addr := rfl

/-! ## Dispatch helpers -/

theorem stepP_of_fetch {s : Cpu} {o : Nat} (h : readByte s s.pc = o) :
    stepP s = stepAfterFetch o { s with pc := wadd16 s.pc 1 } := by
  have hp : stepP s = stepAfterFetch (readByte s s.pc) { s with pc := wadd16 s.pc 1 } := rfl
  rw [hp, h]

theorem step_of_stepP {s t : Cpu} (h : stepP s = some t) : step s = t := by
  unfold step
  rw [h]
  rfl

theorem readByte_lt (s : Cpu) (addr : Nat) : readByte s addr < 256 :=
  Nat.mod_lt _ (by norm_num)

theorem stepAfterFetch_isSome (o : Nat) (ho : o < 256) (s : Cpu) :
    (stepAfterFetch o s).isSome = true := by
  interval_cases o <;> rfl

/-- C1: for every opcode byte value 0-255, every processor state, and every
bus content, decoding is total: no branch of the 256-way match in
`Cpu6502::step` reaches `unreachable!()` (modelled as `none`), so one call
to `step` always completes with a defined action. -/
theorem step_decode_total :
    (∀ o, o < 256 → ∀ s : Cpu, (stepAfterFetch o s).isSome = true) ∧
      (∀ s : Cpu, (stepP s).isSome = true) := by
  refine ⟨fun o ho s => stepAfterFetch_isSome o ho s, fun s => ?_⟩
  rw [stepP_of_fetch rfl]
  exact stepAfterFetch_isSome _ (readByte_lt s s.pc) _

/-- Witness for `step_decode_total` at a concrete opcode and state. -/
theorem step_decode_total_witness :
    (stepAfterFetch 0x6C (cpuNew (fun _ => 0))).isSome = true :=
  step_decode_total.1 0x6C (by decide) (cpuNew (fun _ => 0))

/-! ## Bitwise-to-arithmetic conversion helpers -/

theorem and_15_eq_mod (n : Nat) : n &&& 15 = n % 16 := by
  have h := Nat.and_pow_two_sub_one_eq_mod n 4
  norm_num at h
  exact h

theorem and_127_eq_mod (n : Nat) : n &&& 127 = n % 128 := by
  have h := Nat.and_pow_two_sub_one_eq_mod n 7
  norm_num at h
  exact h

theorem shiftRight_4_eq_div (n : Nat) : n >>> 4 = n / 16 := by
  rw [Nat.shiftRight_eq_div_pow]

theorem shiftLeft_4_or (u l : Nat) (h : l < 16) : (u <<< 4) ||| l = 16 * u + l := by
  rw [Nat.shiftLeft_eq, Nat.mul_comm]
  exact (Nat.mul_add_lt_is_or (by norm_num [h] : l < 2 ^ 4) u).symm

@[simp] theorem getFlag_updateA (f : CpuFlag) (s : Cpu) (v : Nat) :
    getFlag f { s with a := v } = getFlag f s := rfl

@[simp] theorem getFlag_mk_status (f : CpuFlag) (b : Nat → Nat) (a x y sp pc : Nat)
    (t : Cpu) : getFlag f (Cpu.mk b a x y t.status sp pc) = getFlag f t := rfl

@[simp] theorem getFlag_ite (f : CpuFlag) (c : Prop) [Decidable c] (t e : Cpu) :
    getFlag f (if c then t else e) = if c then getFlag f t else getFlag f e := by
  split_ifs <;> rfl

/-! ## Characterization of the decimal-mode ADC and SBC accumulator results -/

/-- When the decimal flag is set and both inputs are valid packed BCD, the
ADC handler produces the packed-BCD sum modulo 100 and carries out exactly
when the decimal sum reaches 100. -/
theorem adcWith_decimal (s : Cpu) (ah al bh bl : Nat)
    (ha : s.a = 16 * ah + al) (hah : ah ≤ 9) (hal : al ≤ 9)
    (hbh : bh ≤ 9) (hbl : bl ≤ 9)
    (hd : getFlag .decimal s = true) :
    (adcWith (16 * bh + bl) s).a / 16 ≤ 9 ∧
    (adcWith (16 * bh + bl) s).a % 16 ≤ 9 ∧
    10 * ((adcWith (16 * bh + bl) s).a / 16) + (adcWith (16 * bh + bl) s).a % 16 =
      (10 * ah + al + (10 * bh + bl) + (if getFlag .carry s then 1 else 0)) % 100 ∧
    getFlag .carry (adcWith (16 * bh + bl) s) =
      decide (100 ≤ 10 * ah + al + (10 * bh + bl) +
        (if getFlag .carry s then 1 else 0)) ∧
    getFlag .decimal (adcWith (16 * bh + bl) s) = true := by
  unfold adcWith
  simp only [getFlag_updateNzFlags, getFlag_setFlag, updateNzFlags_a, setFlag_a,
    updateNzFlags_bus, getFlag_updateA, hd, ha,
    and_15_eq_mod, shiftRight_4_eq_div, reduceCtorEq, if_false, if_true]
  have e1 : (16 * ah + al) % 16 = al := by omega
  have e2 : (16 * ah + al) / 16 = ah := by omega
  have e3 : (16 * bh + bl) % 16 = bl := by omega
  have e4 : (16 * bh + bl) / 16 = bh := by omega
  rw [e1, e2, e3, e4]
  clear ha
  split_ifs with h1 h2 h3 <;>
    rw [shiftLeft_4_or _ _ (by omega), Nat.mod_eq_of_lt (by omega)] <;>
    refine ⟨by omega, by omega, by omega, ?_, by simp [hd]⟩ <;>
    simp only [getFlag_setFlag, getFlag_updateNzFlags, reduceCtorEq, if_true, if_false] <;>
    simp <;> omega

/-- When the decimal flag is set and both inputs are valid packed BCD, the
SBC handler produces the packed-BCD ten\'s-complement difference modulo 100. -/
theorem pack_small (u l : Nat) (hu : u ≤ 15) (hl : l ≤ 15) :
    ((u <<< 4) ||| l) % 256 = 16 * u + l := by
  rw [shiftLeft_4_or _ _ (by omega)]
  omega

theorem sbcWith_decimal (s : Cpu) (ah al bh bl : Nat)
    (ha : s.a = 16 * ah + al) (hah : ah ≤ 9) (hal : al ≤ 9)
    (hbh : bh ≤ 9) (hbl : bl ≤ 9)
    (hd : getFlag .decimal s = true) :
    (sbcWith (16 * bh + bl) s).a / 16 ≤ 9 ∧
    (sbcWith (16 * bh + bl) s).a % 16 ≤ 9 ∧
    10 * ((sbcWith (16 * bh + bl) s).a / 16) + (sbcWith (16 * bh + bl) s).a % 16 =
      (10 * ah + al + 100 - (10 * bh + bl) -
        (1 - (if getFlag .carry s then 1 else 0))) % 100 := by
  unfold sbcWith
  have em : (16 * bh + bl) % 256 = 16 * bh + bl := by omega
  rw [em]
  simp only [getFlag_updateNzFlags, getFlag_setFlag, updateNzFlags_a, setFlag_a,
    updateNzFlags_bus, getFlag_updateA, hd, ha,
    and_15_eq_mod, shiftRight_4_eq_div, reduceCtorEq, if_false, if_true]
  have em2 : (255 - (16 * bh + bl)) % 256 = 255 - (16 * bh + bl) := by omega
  rw [em2]
  have em3 : 255 - (255 - (16 * bh + bl)) = 16 * bh + bl := by omega
  rw [em3]
  have e1 : (16 * ah + al) % 16 = al := by omega
  have e2 : (16 * ah + al) / 16 = ah := by omega
  have e3 : (16 * bh + bl) % 16 = bl := by omega
  have e4 : (16 * bh + bl) / 16 = bh := by omega
  rw [e1, e2, e3, e4]
  clear ha em em2 em3 e1 e2 e3 e4
  set c := (if getFlag .carry s = true then (1 : Nat) else 0) with hcdef
  have hcb : c ≤ 1 := by rw [hcdef]; split <;> omega
  have hl : wsub16 (wsub16 al bl) (1 - c) =
      if bl + (1 - c) ≤ al then al - bl - (1 - c) else al + 65536 - bl - (1 - c) := by
    unfold wsub16
    split_ifs <;> omega
  have hu : wsub16 ah bh = if bh ≤ ah then ah - bh else ah + 65536 - bh := by
    unfold wsub16
    split_ifs <;> omega
  rw [hl, hu]
  have hu1 : wsub16 (if bh ≤ ah then ah - bh else ah + 65536 - bh) 1 =
      if bh + 1 ≤ ah then ah - bh - 1 else ah + 65536 - bh - 1 := by
    split_ifs <;> (unfold wsub16; omega)
  rw [hu1]
  have hwl : wadd16
      (if bl + (1 - c) ≤ al then al - bl - (1 - c) else al + 65536 - bl - (1 - c)) 10 =
      if bl + (1 - c) ≤ al then al - bl - (1 - c) + 10 else al + 10 - bl - (1 - c) := by
    split_ifs <;> (unfold wadd16; omega)
  have hwu : wadd16
      (if 10 ≤ (if bl + (1 - c) ≤ al then al - bl - (1 - c) else al + 65536 - bl - (1 - c))
        then (if bh + 1 ≤ ah then ah - bh - 1 else ah + 65536 - bh - 1)
        else (if bh ≤ ah then ah - bh else ah + 65536 - bh)) 10 =
      if 10 ≤ (if bl + (1 - c) ≤ al then al - bl - (1 - c) else al + 65536 - bl - (1 - c))
        then (if bh + 1 ≤ ah then ah - bh + 9 else ah + 9 - bh)
        else (if bh ≤ ah then ah - bh + 10 else ah + 10 - bh) := by
    split_ifs <;> (unfold wadd16; omega)
  rw [hwl, hwu]
  refine ⟨?_, ?_, ?_⟩ <;>
    split_ifs <;>
    rw [pack_small _ _ (by omega) (by omega)] <;>
    omega

/-- Probe state for the BCD round-trip counterexample: decimal mode set,
carry clear, accumulator 0; memory holds ADC-immediate 0 then SBC-immediate 0
(opcodes 0x69 and 0xE9). -/
def bcdProbe : Cpu :=
  { bus := fun addr => if addr = 0 then 0x69 else if addr = 2 then 0xE9 else 0,
    a := 0, x := 0, y := 0, status := 8, sp := 0, pc := 0 }

/-- C3 counterexample: with decimal mode set, accumulator 0 (valid BCD),
operand 0 (valid BCD) and incoming carry clear, executing ADC #0 and then
SBC #0 (which consumes the carry the ADC produced) leaves the accumulator at
0x99, not at the original 0: the round trip of the claim fails. -/
theorem bcd_roundtrip_counterexample :
    bcdProbe.a = 0 ∧ getFlag .decimal bcdProbe = true ∧
      getFlag .carry bcdProbe = false ∧
      (step (step bcdProbe)).a = 0x99 ∧ (step (step bcdProbe)).a ≠ bcdProbe.a := by
  refine ⟨rfl, rfl, rfl, rfl, by decide⟩

/-- C3 (amended): with decimal mode set and valid packed-BCD accumulator and
operand, add-with-carry followed by subtract-with-carry of the same operand
(using the carry produced by the add) restores the accumulator exactly when
the carry produced by the add differs from the incoming carry; with equal
carries the result is off by one decimal unit. -/
theorem bcd_roundtrip_amended (s : Cpu) (ah al bh bl : Nat)
    (ha : s.a = 16 * ah + al) (hah : ah ≤ 9) (hal : al ≤ 9)
    (hbh : bh ≤ 9) (hbl : bl ≤ 9)
    (hd : getFlag .decimal s = true) :
    (sbcWith (16 * bh + bl) (adcWith (16 * bh + bl) s)).a = s.a ↔
      getFlag .carry (adcWith (16 * bh + bl) s) ≠ getFlag .carry s := by
  obtain ⟨d1, d2, d3, d4, d5⟩ := adcWith_decimal s ah al bh bl ha hah hal hbh hbl hd
  have ha1 : (adcWith (16 * bh + bl) s).a =
      16 * ((adcWith (16 * bh + bl) s).a / 16) + (adcWith (16 * bh + bl) s).a % 16 := by
    omega
  obtain ⟨e1, e2, e3⟩ := sbcWith_decimal (adcWith (16 * bh + bl) s)
    ((adcWith (16 * bh + bl) s).a / 16) ((adcWith (16 * bh + bl) s).a % 16)
    bh bl ha1 d1 d2 hbh hbl d5
  have hadcdm := Nat.div_add_mod (adcWith (16 * bh + bl) s).a 16
  have hresdm := Nat.div_add_mod (sbcWith (16 * bh + bl) (adcWith (16 * bh + bl) s)).a 16
  have hcout : getFlag .carry (adcWith (16 * bh + bl) s) = true ↔
      100 ≤ 10 * ah + al + (10 * bh + bl) +
        (if getFlag .carry s then 1 else 0) := by
    rw [d4]
    exact decide_eq_true_iff
  rcases Bool.eq_false_or_eq_true (getFlag .carry s) with hcs | hcs <;>
    rcases Bool.eq_false_or_eq_true (getFlag .carry (adcWith (16 * bh + bl) s))
      with hcs1 | hcs1 <;>
    rw [hcs, hcs1] at hcout ⊢ <;>
    rw [hcs] at d3 <;>
    rw [hcs1] at e3 <;>
    simp only [Bool.false_eq_true, Bool.true_eq_false, eq_self_iff_true,
      if_true, if_false, iff_true, iff_false, ne_eq, not_false_eq_true,
      not_true_eq_false, not_true, not_false_iff] at hcout d3 e3 ⊢ <;>
    omega

/-- Concrete decimal-mode state for the round-trip witness: accumulator 0x34,
decimal and carry flags set. -/
def bcdW : Cpu :=
  { bus := fun _ => 0, a := 0x34, x := 0, y := 0, status := 9, sp := 0, pc := 0 }

/-- Witness for `bcd_roundtrip_amended` at accumulator 0x34, operand 0x12,
incoming carry set. -/
theorem bcd_roundtrip_amended_witness :
    ((sbcWith (16 * 1 + 2) (adcWith (16 * 1 + 2) bcdW)).a = bcdW.a ↔
      getFlag .carry (adcWith (16 * 1 + 2) bcdW) ≠ getFlag .carry bcdW) :=
  bcd_roundtrip_amended bcdW 3 4 1 2 rfl (by decide) (by decide) (by decide)
    (by decide) rfl

/-- C2 (amended): the ADC and SBC handlers compute overflow, negative and
zero from the 9-bit binary sum (operand complemented for SBC) in every mode;
the carry flag equals the 9-bit carry-out whenever the decimal flag is
clear (in decimal mode the carry flag is recomputed as the BCD carry). -/
theorem adc_sbc_binary_flags (s : Cpu) (m : Nat) (hm : m < 256) :
    ((getFlag .decimal s = false →
        getFlag .carry (adcWith m s) =
          decide (255 < s.a + m + (if getFlag .carry s then 1 else 0))) ∧
      getFlag .overflow (adcWith m s) =
        (decide (255 < s.a + m + (if getFlag .carry s then 1 else 0)) !=
          decide (127 < s.a % 128 + m % 128 + (if getFlag .carry s then 1 else 0))) ∧
      getFlag .negative (adcWith m s) =
        decide (128 ≤ (s.a + m + (if getFlag .carry s then 1 else 0)) % 256) ∧
      getFlag .zero (adcWith m s) =
        ((s.a + m + (if getFlag .carry s then 1 else 0)) % 256 == 0)) ∧
    ((getFlag .decimal s = false →
        getFlag .carry (sbcWith m s) =
          decide (255 < s.a + (255 - m) + (if getFlag .carry s then 1 else 0))) ∧
      getFlag .overflow (sbcWith m s) =
        (decide (255 < s.a + (255 - m) + (if getFlag .carry s then 1 else 0)) !=
          decide (127 < s.a % 128 + (255 - m) % 128 +
            (if getFlag .carry s then 1 else 0))) ∧
      getFlag .negative (sbcWith m s) =
        decide (128 ≤ (s.a + (255 - m) + (if getFlag .carry s then 1 else 0)) % 256) ∧
      getFlag .zero (sbcWith m s) =
        ((s.a + (255 - m) + (if getFlag .carry s then 1 else 0)) % 256 == 0)) := by
  have hmm : m % 256 = m := Nat.mod_eq_of_lt hm
  constructor
  · unfold adcWith
    simp only [getFlag_setFlag, getFlag_updateNzFlags, getFlag_updateA,
      setFlag_a, updateNzFlags_a, and_127_eq_mod, reduceCtorEq, if_false, if_true]
    refine ⟨fun hdf => ?_, ?_, ?_, ?_⟩
    · rw [hdf]
      simp only [Bool.false_eq_true, if_false, getFlag_mk_status, getFlag_setFlag,
        getFlag_updateNzFlags, getFlag_updateA, reduceCtorEq, eq_self_iff_true,
        if_true]
    all_goals
      rcases Bool.eq_false_or_eq_true (getFlag .decimal s) with hdec | hdec <;>
        rw [hdec] <;>
        simp only [Bool.false_eq_true, eq_self_iff_true, if_false, if_true,
          getFlag_mk_status, getFlag_ite, getFlag_setFlag, getFlag_updateNzFlags,
          getFlag_updateA, reduceCtorEq, ite_self]
  · unfold sbcWith
    rw [hmm]
    simp only [getFlag_setFlag, getFlag_updateNzFlags, getFlag_updateA,
      setFlag_a, updateNzFlags_a, and_127_eq_mod, reduceCtorEq, if_false, if_true]
    refine ⟨fun hdf => ?_, ?_, ?_, ?_⟩
    · rw [hdf]
      simp only [Bool.false_eq_true, if_false, getFlag_mk_status, getFlag_setFlag,
        getFlag_updateNzFlags, getFlag_updateA, reduceCtorEq, eq_self_iff_true,
        if_true]
    all_goals
      rcases Bool.eq_false_or_eq_true (getFlag .decimal s) with hdec | hdec <;>
        rw [hdec] <;>
        simp only [Bool.false_eq_true, eq_self_iff_true, if_false, if_true,
          getFlag_mk_status, getFlag_ite, getFlag_setFlag, getFlag_updateNzFlags,
          getFlag_updateA, reduceCtorEq, ite_self]

/-- Decimal-mode state executing ADC immediate 0x50 with accumulator 0x50 and
carry clear (opcode 0x69 at address 0, operand 0x50). -/
def adcDecProbe : Cpu :=
  { bus := fun addr => if addr = 0 then 0x69 else 0x50,
    a := 0x50, x := 0, y := 0, status := 8, sp := 0, pc := 0 }

/-- C2 counterexample: with the decimal flag set, ADC of 0x50 into 0x50 with
carry clear sets the carry flag even though the 9-bit binary sum (0xA0) does
not exceed 255: the carry flag is not independent of decimal mode. -/
theorem adc_carry_decimal_counterexample :
    getFlag .decimal adcDecProbe = true ∧
      getFlag .carry adcDecProbe = false ∧
      getFlag .carry (step adcDecProbe) = true ∧
      ¬(255 < adcDecProbe.a + readByte adcDecProbe 1 +
          (if getFlag .carry adcDecProbe then 1 else 0)) := by
  refine ⟨rfl, rfl, rfl, by decide⟩

/-- Binary-mode state for the C2 witness: accumulator 0x50, all flags clear. -/
def bcdBinW : Cpu :=
  { bus := fun _ => 0, a := 0x50, x := 0, y := 0, status := 0, sp := 0, pc := 0 }

/-- Witness for `adc_sbc_binary_flags` at a concrete state and operand. -/
theorem adc_sbc_binary_flags_witness :
    getFlag .overflow (adcWith 0x50 bcdBinW) =
      (decide (255 < bcdBinW.a + 0x50 + (if getFlag .carry bcdBinW then 1 else 0)) !=
        decide (127 < bcdBinW.a % 128 + (0x50 : Nat) % 128 +
          (if getFlag .carry bcdBinW then 1 else 0))) :=
  (adc_sbc_binary_flags bcdBinW 0x50 (by decide)).1.2.1

/-- Memory whose reset vector 0xFFFC/0xFFFD points at 0x8000. -/
def resetProbeMem : Nat → Nat := fun addr =>
  if addr = 0xFFFC then 0x00 else if addr = 0xFFFD then 0x80 else 0

/-- C7: `reset` sets interrupt-disable and loads the program counter from the
little-endian reset vector, performs no bus write, and leaves accumulator,
X, Y and the other flags unchanged - but it leaves the stack pointer at 255
instead of decrementing it by 3 to 252 as the claim (and the spec) state. -/
theorem reset_keeps_sp :
    (reset (cpuNew resetProbeMem)).sp = 255 ∧
      (reset (cpuNew resetProbeMem)).sp ≠ wsub8 (cpuNew resetProbeMem).sp 3 ∧
      (reset (cpuNew resetProbeMem)).pc = 0x8000 ∧
      getFlag .interruptDisable (reset (cpuNew resetProbeMem)) = true ∧
      (reset (cpuNew resetProbeMem)).a = (cpuNew resetProbeMem).a ∧
      (reset (cpuNew resetProbeMem)).x = (cpuNew resetProbeMem).x ∧
      (reset (cpuNew resetProbeMem)).y = (cpuNew resetProbeMem).y ∧
      (reset (cpuNew resetProbeMem)).bus = (cpuNew resetProbeMem).bus ∧
      (∀ f : CpuFlag, f ≠ .interruptDisable →
        getFlag f (reset (cpuNew resetProbeMem)) = getFlag f (cpuNew resetProbeMem)) := by
  refine ⟨rfl, by decide, rfl, rfl, rfl, rfl, rfl, rfl, fun f _ => ?_⟩
  cases f <;> rfl

@[simp] theorem wadd16_wadd16 (x a b : Nat) : wadd16 (wadd16 x a) b = wadd16 x (a + b) := by
  unfold wadd16
  omega

theorem stepAfterFetch_jsr (s : Cpu) : stepAfterFetch 0x20 s = some (jsrBody s) := rfl

theorem stepAfterFetch_rts (s : Cpu) : stepAfterFetch 0x60 s = some (rtsBody s) := rfl

theorem jsr_step (s : Cpu) (hfetch : readByte s s.pc = 0x20) :
    step s = jsrBody { s with pc := wadd16 s.pc 1 } :=
  step_of_stepP (by rw [stepP_of_fetch hfetch, stepAfterFetch_jsr])

theorem rts_step (s : Cpu) (hfetch : readByte s s.pc = 0x60) :
    step s = rtsBody { s with pc := wadd16 s.pc 1 } :=
  step_of_stepP (by rw [stepP_of_fetch hfetch, stepAfterFetch_rts])

/-- C4: JSR with its opcode at P pushes P+2 (the address of the last byte of
the 3-byte call) high byte first, sets pc to the little-endian target operand,
and decrements sp by 2; an immediately following RTS pops low then high and
adds 1, leaving pc at P+3. -/
theorem jsr_rts_roundtrip (s : Cpu) (hsp : s.sp < 256)
    (hfetch : readByte s s.pc = 0x20) :
    (step s).pc = readByte s (wadd16 s.pc 1) + 256 * readByte s (wadd16 s.pc 2) ∧
    readByte (step s) (STACK_START + s.sp) = (wadd16 s.pc 2) / 256 ∧
    readByte (step s) (STACK_START + (s.sp + 255) % 256) = (wadd16 s.pc 2) % 256 ∧
    (step s).sp = (s.sp + 254) % 256 ∧
    (readByte (step s) (step s).pc = 0x60 → (step (step s)).pc = wadd16 s.pc 3) := by
  rw [jsr_step s hfetch]
  refine ⟨?_, ?_, ?_, ?_, fun h60 => ?_⟩
  · simp only [jsrBody, takeAbsolute, takeByteAtPc, stackPush, wadd16_wadd16,
      Nat.reduceAdd, readByte]
  · simp only [jsrBody, takeAbsolute, takeByteAtPc, stackPush, readByte, writeByte,
      wadd16, wsub16, wadd8, wsub8, STACK_START, writeByte_sp, stackPush_sp]
    split_ifs <;> omega
  · simp only [jsrBody, takeAbsolute, takeByteAtPc, stackPush, readByte, writeByte,
      wadd16, wsub16, wadd8, wsub8, STACK_START, writeByte_sp, stackPush_sp]
    split_ifs <;> omega
  · simp only [jsrBody, takeAbsolute, takeByteAtPc, stackPush, readByte, writeByte,
      wadd16, wsub16, wadd8, wsub8, STACK_START, writeByte_sp, stackPush_sp]
    omega
  · rw [rts_step _ h60]
    simp only [jsrBody, rtsBody, takeAbsolute, takeByteAtPc, stackPush, stackPop,
      readByte, writeByte, wadd16, wsub16, wadd8, wsub8, STACK_START,
      writeByte_sp, stackPush_sp]
    split_ifs <;> omega

theorem stepAfterFetch_brk (s : Cpu) : stepAfterFetch 0x00 s = some (brkBody s) := rfl

theorem stepAfterFetch_rti (s : Cpu) : stepAfterFetch 0x40 s = some (rtiBody s) := rfl

theorem brk_step (s : Cpu) (hfetch : readByte s s.pc = 0x00) :
    step s = brkBody { s with pc := wadd16 s.pc 1 } :=
  step_of_stepP (by rw [stepP_of_fetch hfetch, stepAfterFetch_brk])

theorem rti_step (s : Cpu) (hfetch : readByte s s.pc = 0x40) :
    step s = rtiBody { s with pc := wadd16 s.pc 1 } :=
  step_of_stepP (by rw [stepP_of_fetch hfetch, stepAfterFetch_rti])

theorem rtiBody_status (s : Cpu) :
    (rtiBody s).status = (readByte s (STACK_START + wadd8 s.sp 1) &&& 0xEF) ||| 0x20 := rfl

theorem rtiBody_pc (s : Cpu) :
    (rtiBody s).pc = readByte s (STACK_START + wadd8 (wadd8 s.sp 1) 1) +
      256 * readByte s (STACK_START + wadd8 (wadd8 (wadd8 s.sp 1) 1) 1) := rfl

theorem testBit_16 (i : Nat) : Nat.testBit 16 i = decide (i = 4) := by
  have h16 : (16 : Nat) = 2 ^ 4 := by norm_num
  rcases eq_or_ne i 4 with h | h
  · subst h; decide
  · simp [h, h16, Nat.testBit_two_pow_of_ne (Ne.symm h)]

theorem status_restore (st : Nat) (i : Nat) (hi : i < 8) (h4 : i ≠ 4) (h5 : i ≠ 5) :
    Nat.testBit (((st ||| 16) &&& 0xEF) ||| 0x20) i = st.testBit i := by
  simp [Nat.testBit_lor, Nat.testBit_land, testBit_239 i hi, testBit_32, testBit_16,
    h4, h5]

/-- C5: BRK at P pushes P+2 high then low, pushes status with the break bit
forced, sets interrupt-disable, and loads pc from 0xFFFE/0xFFFF; a subsequent
RTI restores pc to P+2 and every flag except the transient break/reserved
bits. -/
theorem brk_rti_roundtrip (s : Cpu) (hsp : s.sp < 256) (hst : s.status < 256)
    (hfetch : readByte s s.pc = 0x00) :
    (step s).pc = readByte s 0xFFFE + 256 * readByte s 0xFFFF ∧
    readByte (step s) (STACK_START + s.sp) = (wadd16 s.pc 2) / 256 ∧
    readByte (step s) (STACK_START + (s.sp + 255) % 256) = (wadd16 s.pc 2) % 256 ∧
    readByte (step s) (STACK_START + (s.sp + 254) % 256) = (s.status ||| 16) ∧
    getFlag .interruptDisable (step s) = true ∧
    (step s).sp = (s.sp + 253) % 256 ∧
    (readByte (step s) (step s).pc = 0x40 →
      (step (step s)).pc = wadd16 s.pc 2 ∧
      ∀ f : CpuFlag, f ≠ .brk → f ≠ .reserved →
        getFlag f (step (step s)) = getFlag f s) := by
  rw [brk_step s hfetch]
  have hB : s.status ||| 16 < 256 := by
    have h := Nat.or_lt_two_pow (x := s.status) (y := 16) (n := 8) (by omega) (by norm_num)
    norm_num at h
    exact h
  refine ⟨?_, ?_, ?_, ?_, ?_, ?_, fun h40 => ⟨?_, fun f hf4 hf5 => ?_⟩⟩
  · simp only [brkBody, stackPush, writeByte, readByte, readAbsolute, wadd16_wadd16,
      Nat.reduceAdd, CpuFlag.bit, wadd16, wsub16, wadd8, wsub8, STACK_START,
      IRQ_BRK_VECTOR]
    norm_num
    split_ifs <;> omega
  · simp only [brkBody, stackPush, writeByte, readByte, readAbsolute, wadd16_wadd16,
      Nat.reduceAdd, CpuFlag.bit, wadd16, wsub16, wadd8, wsub8, STACK_START,
      IRQ_BRK_VECTOR]
    norm_num
    split_ifs <;> omega
  · simp only [brkBody, stackPush, writeByte, readByte, readAbsolute, wadd16_wadd16,
      Nat.reduceAdd, CpuFlag.bit, wadd16, wsub16, wadd8, wsub8, STACK_START,
      IRQ_BRK_VECTOR]
    norm_num
    split_ifs <;> omega
  · simp only [brkBody, stackPush, writeByte, readByte, readAbsolute, wadd16_wadd16,
      Nat.reduceAdd, CpuFlag.bit, Nat.one_shiftLeft, wadd16, wsub16, wadd8, wsub8,
      STACK_START, IRQ_BRK_VECTOR]
    norm_num
    set B := s.status ||| 16 with hBdef
    split_ifs <;> omega
  · simp only [brkBody, getFlag_mk_status, getFlag_setFlag, eq_self_iff_true, if_true]
  · simp only [brkBody, stackPush, writeByte, wadd8, wsub8, setFlag_sp, STACK_START]
    omega
  · rw [rti_step _ h40, rtiBody_pc]
    simp only [brkBody, stackPush, writeByte, readByte, readAbsolute, wadd16_wadd16,
      Nat.reduceAdd, CpuFlag.bit, Nat.one_shiftLeft, wadd16, wsub16, wadd8, wsub8,
      STACK_START, IRQ_BRK_VECTOR, setFlag_sp, setFlag_bus, setFlag_pc]
    norm_num
    split_ifs <;> omega
  · rw [rti_step _ h40, getFlag_eq_testBit, getFlag_eq_testBit, rtiBody_status]
    have h4 : CpuFlag.bit f ≠ 4 := fun hb => hf4 (by cases f <;> simp_all [CpuFlag.bit])
    have h5 : CpuFlag.bit f ≠ 5 := fun hb => hf5 (by cases f <;> simp_all [CpuFlag.bit])
    simp only [brkBody, stackPush, writeByte, readByte, wadd16_wadd16,
      Nat.reduceAdd, CpuFlag.bit, Nat.one_shiftLeft, wadd16, wsub16, wadd8, wsub8,
      STACK_START, IRQ_BRK_VECTOR, setFlag_sp, setFlag_bus, setFlag_pc]
    norm_num
    set B := s.status ||| 16 with hBdef
    split_ifs <;>
      first
        | (exfalso; omega)
        | (rw [Nat.mod_eq_of_lt (show B < 256 by omega),
             Nat.mod_eq_of_lt (show B < 256 by omega), hBdef, Nat.testBit_lor]
           have hsr := status_restore s.status f.bit (flagBit_lt f) h4 h5
           rw [Nat.testBit_lor, Nat.testBit_land, Nat.testBit_lor] at hsr
           exact hsr)

/-- Memory with JSR 0x0005 at address 0 and RTS at address 5. -/
def jsrMem : Nat → Nat := fun a =>
  if a = 0 then 0x20 else if a = 1 then 5 else if a = 5 then 0x60 else 0

/-- Witness for `jsr_rts_roundtrip`: the concrete JSR/RTS program returns to
address 3. -/
theorem jsr_rts_roundtrip_witness :
    (step (step (cpuNew jsrMem))).pc = wadd16 (cpuNew jsrMem).pc 3 :=
  (jsr_rts_roundtrip (cpuNew jsrMem) (by decide) rfl).2.2.2.2 rfl

/-- Memory with BRK at address 0, interrupt vector 0x0005 at 0xFFFE/0xFFFF,
and RTI at address 5. -/
def brkMem : Nat → Nat := fun a =>
  if a = 0xFFFE then 5 else if a = 0xFFFF then 0 else if a = 5 then 0x40 else 0

/-- Witness for `brk_rti_roundtrip`: the concrete BRK/RTI program resumes at
address 2. -/
theorem brk_rti_roundtrip_witness :
    (step (step (cpuNew brkMem))).pc = wadd16 (cpuNew brkMem).pc 2 :=
  ((brk_rti_roundtrip (cpuNew brkMem) (by decide) (by decide) rfl).2.2.2.2.2.2 rfl).1

set_option maxRecDepth 4000 in
theorem and_128_testBit (v : Nat) (hv : v < 256) :
    (v &&& 128 != 0) = decide (128 ≤ v) := by
  revert v
  decide

/-- Opcodes of the 13 store instructions STA/STX/STY across their addressing
modes (cpu.rs lines 311-322, 449-454, 568-581). -/
def storeOpcodes : List Nat :=
  [0x85, 0x95, 0x8D, 0x9D, 0x99, 0x81, 0x91, 0x86, 0x96, 0x8E, 0x84, 0x94, 0x8C]

/-- C9: every NZ-affecting operation funnels through `update_nz_flags`, which
sets negative exactly to bit 7 of the result byte and zero exactly to
(result = 0) while leaving all other flags alone; the store instructions
never change the status byte at all. -/
theorem nz_flags_spec :
    (∀ (s : Cpu) (v : Nat), v < 256 →
      getFlag .negative (updateNzFlags v s) = (v &&& 128 != 0) ∧
      getFlag .zero (updateNzFlags v s) = (v == 0) ∧
      (∀ f : CpuFlag, f ≠ .negative → f ≠ .zero →
        getFlag f (updateNzFlags v s) = getFlag f s)) ∧
    (∀ (s : Cpu) (o : Nat), o ∈ storeOpcodes → readByte s s.pc = o →
      (step s).status = s.status) := by
  constructor
  · intro s v hv
    refine ⟨?_, ?_, fun f hfn hfz => ?_⟩
    · rw [and_128_testBit v hv]
      simp
    · simp
    · cases f <;> simp_all
  · intro s o ho hf
    have hs : step s = (stepAfterFetch o { s with pc := wadd16 s.pc 1 }).getD s := by
      unfold step
      rw [stepP_of_fetch hf]
    rw [hs]
    fin_cases ho <;> rfl

/-- The 105 opcode bytes not assigned to a documented instruction: the empty
(`{}`) arms of `Cpu6502::step` plus the immediate-slot store 0x89
(cpu.rs lines 291-302, 310, 323, 369-370, 390-391, 453, 504-506, 567,
577, 583, 602, 616, 632, 640, 650, 666, 674 and 684-747). -/
def illegalOpcodes : List Nat :=
  [0x04, 0x0C, 0x14, 0x1C, 0x34, 0x3C, 0x44, 0x54, 0x5C, 0x64, 0x74, 0x7C,
   0x80, 0x9C, 0xD4, 0xDC, 0xF4, 0xFC,
   0x89,
   0x02, 0x22, 0x42, 0x62, 0x12, 0x32, 0x52, 0x72, 0x1A, 0x3A, 0x5A, 0x7A,
   0x82, 0x92, 0x9E, 0xB2, 0xC2, 0xD2, 0xDA, 0xE2, 0xF2, 0xFA,
   0x03, 0x07, 0x0B, 0x0F, 0x13, 0x17, 0x1B, 0x1F, 0x23, 0x27, 0x2B, 0x2F, 0x33, 0x37, 0x3B, 0x3F, 0x43, 0x47, 0x4B, 0x4F, 0x53, 0x57, 0x5B, 0x5F, 0x63, 0x67, 0x6B, 0x6F, 0x73, 0x77, 0x7B, 0x7F, 0x83, 0x87, 0x8B, 0x8F, 0x93, 0x97, 0x9B, 0x9F, 0xA3, 0xA7, 0xAB, 0xAF, 0xB3, 0xB7, 0xBB, 0xBF, 0xC3, 0xC7, 0xCB, 0xCF, 0xD3, 0xD7, 0xDB, 0xDF, 0xE3, 0xE7, 0xEB, 0xEF, 0xF3, 0xF7, 0xFB, 0xFF]

/-- C6 (amended): every illegal opcode is a pure no-op that consumes no
operand bytes, advancing pc by exactly 1 (the opcode byte); the single
exception is 0x89, the immediate-mode slot of the store group, whose
immediate operand is resolved, advancing pc by 2.  No register, flag or
memory effect occurs either way. -/
theorem illegal_opcodes_nop :
    ∀ o ∈ illegalOpcodes, ∀ s : Cpu, readByte s s.pc = o →
      step s = { s with pc := wadd16 s.pc (if o = 0x89 then 2 else 1) } := by
  intro o ho s hf
  have hs : step s = (stepAfterFetch o { s with pc := wadd16 s.pc 1 }).getD s := by
    unfold step
    rw [stepP_of_fetch hf]
  rw [hs]
  fin_cases ho <;>
    first
      | rfl
      | (show ({ s with pc := wadd16 (wadd16 s.pc 1) 1 } : Cpu) = _
         simp [wadd16_wadd16])

/-- Modelled from the spec: the addressing modes of section 4.2.  The decode
table itself is in src, but the "documented instruction length" the spec
compares against is not computed anywhere in src, so the operand-byte count
of each mode is taken from the spec table. -/
inductive AddressingMode where
  | immediate
  | relative
  | zeroPage
  | zeroPageX
  | zeroPageY
  | absolute
  | absoluteX
  | absoluteY
  | indirect
  | indexedIndirect
  | indirectIndexed
  | accumulator
  | implied
deriving DecidableEq, Repr

/-- Modelled from the spec: operand bytes consumed by each addressing mode
(spec section 4.2: immediate, relative and all zero-page forms take one
operand byte; absolute, indexed-absolute and indirect take two; accumulator
and implied take none). -/
def specOperandBytes : AddressingMode → Nat
  | .immediate => 1
  | .relative => 1
  | .zeroPage => 1
  | .zeroPageX => 1
  | .zeroPageY => 1
  | .absolute => 2
  | .absoluteX => 2
  | .absoluteY => 2
  | .indirect => 2
  | .indexedIndirect => 1
  | .indirectIndexed => 1
  | .accumulator => 0
  | .implied => 0

/-- Modelled from the spec: documented instruction length is the opcode byte
plus the operand bytes of the addressing mode. -/
def specDocumentedLength (m : AddressingMode) : Nat :=
  1 + specOperandBytes m

/-- C6 counterexample: opcode 0x04 is the illegal `NOP d` slot (zero-page
mode, per the decode comment in cpu.rs line 291), so its documented length
is 2, but one `step` advances pc by only 1: the operand byte is not
consumed. -/
theorem illegal_nop_length_counterexample :
    specDocumentedLength .zeroPage = 2 ∧
      (step (cpuNew (fun _ => 0x04))).pc = (cpuNew (fun _ => 0x04)).pc + 1 ∧
      (step (cpuNew (fun _ => 0x04))).pc ≠
        (cpuNew (fun _ => 0x04)).pc + specDocumentedLength .zeroPage := by
  exact ⟨rfl, rfl, by decide⟩

/-- Modelled from the spec: the shared interrupt entry sequence (spec
section 4.5).  The implementations of `irq` and `nmi` are not among the
provided sources - only the integration tests call them - so the sequence is
built from the spec: push pc high, push pc low, push the status byte without
forcing the break bit, set interrupt-disable, then load pc from the vector. -/
def interruptSequence (vector : Nat) (s : Cpu) : Cpu :=
  let s1 := stackPush (s.pc / 256) s
  let s2 := stackPush (s.pc % 256) s1
  let s3 := stackPush s2.status s2
  let s4 := setFlag .interruptDisable true s3
  { s4 with pc := readAbsolute s4 vector }

/-- Modelled from the spec: `irq` delivers a hardware interrupt only when
interrupt-disable is clear (spec sections 4.5 and 6). -/
def irq (s : Cpu) : Cpu :=
  if getFlag .interruptDisable s then s else interruptSequence IRQ_BRK_VECTOR s

/-- Modelled from the spec: `nmi` always delivers the interrupt sequence at
its own vector 0xFFFA (spec sections 4.5 and 6). -/
def nmi (s : Cpu) : Cpu :=
  interruptSequence NMI_VECTOR s

/-- C8: `irq` leaves the state untouched when interrupt-disable is set, and
otherwise (like `nmi` always) pushes pc high then low then the status byte
without forcing the break bit, sets interrupt-disable, and loads pc from its
vector - 0xFFFE/0xFFFF for `irq`, 0xFFFA/0xFFFB for `nmi`. -/
theorem irq_nmi_spec (s : Cpu) (hsp : s.sp < 256) :
    (getFlag .interruptDisable s = true → irq s = s) ∧
    (getFlag .interruptDisable s = false →
      readByte (irq s) (STACK_START + s.sp) = s.pc / 256 % 256 ∧
      readByte (irq s) (STACK_START + (s.sp + 255) % 256) = s.pc % 256 ∧
      readByte (irq s) (STACK_START + (s.sp + 254) % 256) = s.status % 256 ∧
      getFlag .interruptDisable (irq s) = true ∧
      (irq s).sp = (s.sp + 253) % 256 ∧
      (irq s).pc = readByte s 0xFFFE + 256 * readByte s 0xFFFF) ∧
    (readByte (nmi s) (STACK_START + s.sp) = s.pc / 256 % 256 ∧
      readByte (nmi s) (STACK_START + (s.sp + 255) % 256) = s.pc % 256 ∧
      readByte (nmi s) (STACK_START + (s.sp + 254) % 256) = s.status % 256 ∧
      getFlag .interruptDisable (nmi s) = true ∧
      (nmi s).sp = (s.sp + 253) % 256 ∧
      (nmi s).pc = readByte s 0xFFFA + 256 * readByte s 0xFFFB) := by
  refine ⟨fun hi => ?_, fun hi => ?_, ?_⟩
  · unfold irq
    rw [hi]
    rfl
  · unfold irq
    rw [hi]
    simp only [Bool.false_eq_true, if_false]
    refine ⟨?_, ?_, ?_, ?_, ?_, ?_⟩ <;>
      simp only [interruptSequence, stackPush, writeByte, readByte, readAbsolute,
        wadd16_wadd16, Nat.reduceAdd, wadd16, wsub16, wadd8, wsub8, STACK_START,
        IRQ_BRK_VECTOR, setFlag_sp, setFlag_bus, setFlag_pc, getFlag_mk_status,
        getFlag_setFlag, eq_self_iff_true, if_true] <;>
      norm_num <;>
      (try split_ifs) <;>
      omega
  · unfold nmi
    refine ⟨?_, ?_, ?_, ?_, ?_, ?_⟩ <;>
      simp only [interruptSequence, stackPush, writeByte, readByte, readAbsolute,
        wadd16_wadd16, Nat.reduceAdd, wadd16, wsub16, wadd8, wsub8, STACK_START,
        NMI_VECTOR, setFlag_sp, setFlag_bus, setFlag_pc, getFlag_mk_status,
        getFlag_setFlag, eq_self_iff_true, if_true] <;>
      norm_num <;>
      (try split_ifs) <;>
      omega

/-- Memory consisting of STA zero-page opcodes. -/
def staMem : Nat → Nat := fun _ => 0x85

/-- Witness for `nz_flags_spec`: a concrete STA leaves the status byte
unchanged. -/
theorem nz_flags_spec_witness :
    (step (cpuNew staMem)).status = (cpuNew staMem).status :=
  nz_flags_spec.2 (cpuNew staMem) 0x85 (by decide) rfl

/-- Witness for `illegal_opcodes_nop`: stepping the illegal opcode 0x04
advances pc by exactly one byte. -/
theorem illegal_opcodes_nop_witness :
    step (cpuNew (fun _ => 0x04)) =
      { cpuNew (fun _ => 0x04) with
          pc := wadd16 (cpuNew (fun _ => 0x04)).pc (if (0x04 : Nat) = 0x89 then 2 else 1) } :=
  illegal_opcodes_nop 0x04 (by decide) (cpuNew (fun _ => 0x04)) rfl

/-- Witness for `irq_nmi_spec`: with interrupt-disable set (as after
construction), `irq` is the identity. -/
theorem irq_nmi_spec_witness :
    irq (cpuNew (fun _ => 0)) = cpuNew (fun _ => 0) :=
  (irq_nmi_spec (cpuNew (fun _ => 0)) (by decide)).1 rfl

/-! ## The stored-status invariant (break bit clear, reserved bit set) -/

@[simp] theorem getFlag_writeByte (f : CpuFlag) (addr v : Nat) (s : Cpu) :
    getFlag f (writeByte addr v s) = getFlag f s := rfl

@[simp] theorem getFlag_stackPush (f : CpuFlag) (v : Nat) (s : Cpu) :
    getFlag f (stackPush v s) = getFlag f s := rfl

@[simp] theorem getFlag_stackPop (f : CpuFlag) (s : Cpu) :
    getFlag f (stackPop s).2 = getFlag f s := rfl

set_option maxHeartbeats 2000000 in
/-- Every group-0 handler keeps the invariant: the only status writers it
reaches are `set_flag` on flags other than break/reserved, `update_nz_flags`,
and `set_status` (RTI/PLP), which re-establishes both bits itself. -/
theorem statusOK_group0 (a b : Nat) (s t : Cpu) (ht : group0 a b s = some t)
    (h : statusOK s) : statusOK t := by
  obtain ⟨h4, h5⟩ := h
  rcases a with _|_|_|_|_|_|_|_|a <;> rcases b with _|_|_|_|_|_|_|_|b <;>
    first
      | exact Option.noConfusion ht
      | (obtain rfl := Option.some.inj ht.symm
         constructor <;>
           simp [brkBody, jsrBody, rtsBody, rtiBody, branchBody, bitVia,
             phpBody, plpBody, phaBody, plaBody, styVia, ldyVia, cpyVia, cpxVia,
             setA, setX, setY, takeImmediate, takeZeroPage, takeAbsolute,
             takeIndirect, takeRelative, takeZeroPageIndexedX,
             takeAbsoluteIndexedX, takeByteAtPc, h4, h5])

set_option maxHeartbeats 2000000 in
/-- Every group-1 (ALU) handler keeps the invariant; the ADC/SBC decimal
branches only ever touch the carry flag. -/
theorem statusOK_group1 (a b : Nat) (s t : Cpu) (ht : group1 a b s = some t)
    (h : statusOK s) : statusOK t := by
  obtain ⟨h4, h5⟩ := h
  rcases a with _|_|_|_|_|_|_|_|a <;> rcases b with _|_|_|_|_|_|_|_|b <;>
    first
      | exact Option.noConfusion ht
      | (obtain rfl := Option.some.inj ht.symm
         constructor <;>
           simp [adcWith, sbcWith, cmpWith, setA, takeIndexedIndirect,
             takeZeroPage, takeImmediate, takeAbsolute, takeIndirectIndexed,
             takeZeroPageIndexedX, takeAbsoluteIndexedY, takeAbsoluteIndexedX,
             takeByteAtPc, h4, h5])

set_option maxHeartbeats 2000000 in
/-- Every group-2 (shift/store/load/inc-dec) handler keeps the invariant. -/
theorem statusOK_group2 (a b : Nat) (s t : Cpu) (ht : group2 a b s = some t)
    (h : statusOK s) : statusOK t := by
  obtain ⟨h4, h5⟩ := h
  rcases a with _|_|_|_|_|_|_|_|a <;> rcases b with _|_|_|_|_|_|_|_|b <;>
    first
      | exact Option.noConfusion ht
      | (obtain rfl := Option.some.inj ht.symm
         constructor <;>
           simp [shiftAcc, shiftMem, shiftExec, stxVia, ldxVia, decVia, incVia,
             setA, setX, takeZeroPage, takeImmediate, takeAbsolute,
             takeZeroPageIndexedX, takeZeroPageIndexedY, takeAbsoluteIndexedX,
             takeAbsoluteIndexedY, takeByteAtPc, h4, h5])

/-- Group 3 is all no-ops, so it trivially keeps the invariant. -/
theorem statusOK_group3 (a b : Nat) (s t : Cpu) (ht : group3 a b s = some t)
    (h : statusOK s) : statusOK t := by
  rcases a with _|_|_|_|_|_|_|_|a <;> rcases b with _|_|_|_|_|_|_|_|b <;>
    first
      | exact Option.noConfusion ht
      | (obtain rfl := Option.some.inj ht.symm; exact h)

theorem statusOK_stepAfterFetch (o : Nat) (s t : Cpu)
    (ht : stepAfterFetch o s = some t) (h : statusOK s) : statusOK t := by
  unfold stepAfterFetch at ht
  have hcc : o &&& 3 ≤ 3 := Nat.and_le_right
  generalize hg : o &&& 3 = cc at ht hcc
  interval_cases cc
  · exact statusOK_group0 _ _ _ _ ht h
  · exact statusOK_group1 _ _ _ _ ht h
  · exact statusOK_group2 _ _ _ _ ht h
  · exact statusOK_group3 _ _ _ _ ht h

theorem statusOK_step (s : Cpu) (h : statusOK s) : statusOK (step s) := by
  unfold step
  rw [stepP_of_fetch rfl]
  cases hs : stepAfterFetch (readByte s s.pc) { s with pc := wadd16 s.pc 1 } with
  | none => exact h
  | some t =>
    refine statusOK_stepAfterFetch _ _ _ hs ⟨?_, ?_⟩
    · exact h.1
    · exact h.2

theorem statusOK_reset (s : Cpu) (h : statusOK s) : statusOK (reset s) := by
  obtain ⟨h4, h5⟩ := h
  constructor <;> simp [reset, h4, h5]

theorem statusOK_cpuNew (bus : Nat → Nat) : statusOK (cpuNew bus) := by
  constructor
  · simp [cpuNew, getFlag, CpuFlag.bit]
    decide
  · simp [cpuNew, getFlag, CpuFlag.bit]

/-- C10: in every state reachable from `Cpu6502::new` by any sequence of
`reset` and `step` calls over any bus, bit 4 (break) of the stored status
field is 0 and bit 5 (reserved) is 1. -/
theorem reachable_status_bits (s : Cpu) (h : Reachable s) :
    s.status.testBit 4 = false ∧ s.status.testBit 5 = true := by
  have hs : statusOK s := by
    induction h with
    | new bus => exact statusOK_cpuNew bus
    | reset _ ih => exact statusOK_reset _ ih
    | step _ ih => exact statusOK_step _ ih
  obtain ⟨h4, h5⟩ := hs
  rw [getFlag_eq_testBit] at h4 h5
  exact ⟨h4, h5⟩

/-- Witness for C10 at a concrete reachable state: one `step` of the
freshly constructed machine over the all-zero bus (a BRK, since the fetched
opcode is 0). -/
theorem reachable_status_bits_witness :
    (step (cpuNew fun _ => 0)).status.testBit 4 = false ∧
      (step (cpuNew fun _ => 0)).status.testBit 5 = true :=
  reachable_status_bits (step (cpuNew fun _ => 0))
    (Reachable.step (Reachable.new fun _ => 0))

end Pones6502
